import Mathlib

/-!
Verification of the eeprom-programmer repository (three Arduino sketches that
burn a microcode decoder image into a parallel EEPROM).

The repository contains three hardware-revision variants of one design:

* `control-rom.ino` (namespace `CR`): opcode in address bits 6-10, inverted
  one-hot ring-counter signal in bits 0-5, bank selected by `ROM_SELECT`.
* `src/unnamed/part_000` (namespace `V0`): opcode in address bits 0-3 masked
  to 4 bits, inverted ring signal in bits 4-9, bank selected by `ROM_SELECT`.
* `src/unnamed/part_001` (namespace `V1`): address is `(0x80 >> step) +
  instruction` with no inversion and no masking; bank 1 signal values are
  hard-coded and bank 2 signals are the constant 0.

The EEPROM is modelled as a total function from addresses to stored values;
`writeEEPROM` truncates the data to a byte exactly as the C++ `byte`
parameter does.  A full `setup()` run is the erase loop (addresses 0..2047)
followed by the programming writes, applied in program order to an arbitrary
initial memory.  The shift-register / control-line level of the driver is
modelled separately by `BusState`, recording the write-enable line, the latch
line, the data-line direction and the serialized address bits.
-/

/-- EEPROM contents: stored value at each address. -/
abbrev Memory : Type := Nat → Nat

/-- Model of `readEEPROM(int address)`: the data pins reproduce the stored
byte at the presented address. -/
def readEEPROM (m : Memory) (address : Nat) : Nat := m address

/-- Model of `writeEEPROM(int address, byte data)`: the store after the write
pulse holds the low 8 bits of `data` (the C++ `byte` parameter) at `address`
and is unchanged elsewhere. -/
def writeEEPROM (m : Memory) (address data : Nat) : Memory :=
  fun x => if x = address then data % 256 else m x

/-- Apply a list of `(address, data)` writes in program order. -/
def applyWrites (m : Memory) (ws : List (Nat × Nat)) : Memory :=
  ws.foldl (fun acc p => writeEEPROM acc p.1 p.2) m

/-- The write list of the erase loop `for (address = 0; address <= n-1; ++address)
writeEEPROM(address, 0xff)`. -/
def eraseList (n : Nat) : List (Nat × Nat) :=
  (List.range n).map (fun a => (a, 0xFF))

/-- The erase phase of `setup()`, identical in all three sketches:
addresses 0 through 2047. -/
def eraseWrites : List (Nat × Nat) := eraseList 2048

/-- An all-zero initial memory, used to instantiate theorems at a concrete
starting state. -/
def mzero : Memory := fun _ => 0

theorem applyWrites_append (m : Memory) (l1 l2 : List (Nat × Nat)) :
    applyWrites m (l1 ++ l2) = applyWrites (applyWrites m l1) l2 := by
  simp [applyWrites, List.foldl_append]

theorem applyWrites_frozen (a : Nat) :
    ∀ (ws : List (Nat × Nat)) (m : Memory),
      (∀ p ∈ ws, p.1 ≠ a) → applyWrites m ws a = m a := by
  intro ws
  induction ws with
  | nil => intro m _; rfl
  | cons p rest ih =>
    intro m h
    have hp : p.1 ≠ a := h p (List.mem_cons_self p rest)
    have hstep : applyWrites m (p :: rest) a
        = applyWrites (writeEEPROM m p.1 p.2) rest a := rfl
    rw [hstep, ih _ (fun q hq => h q (List.mem_cons_of_mem p hq))]
    simp [writeEEPROM, Ne.symm hp]

theorem applyWrites_eraseList (n : Nat) :
    ∀ (m : Memory) (a : Nat),
      applyWrites m (eraseList n) a = if a < n then 0xFF else m a := by
  induction n with
  | zero => intro m a; simp [eraseList, applyWrites]
  | succ k ih =>
    intro m a
    have h1 : eraseList (k + 1) = eraseList k ++ [(k, 0xFF)] := by
      simp [eraseList, List.range_succ]
    rw [h1, applyWrites_append]
    have h2 : applyWrites (applyWrites m (eraseList k)) [(k, 0xFF)] a
        = if a = k then 0xFF % 256 else applyWrites m (eraseList k) a := rfl
    rw [h2, ih m a]
    by_cases hak : a = k
    · subst hak; simp
    · simp only [hak, if_false]
      by_cases hlt : a < k
      · simp [hlt, Nat.lt_succ_of_lt hlt]
      · have : ¬ a < k + 1 := by omega
        simp [hlt, this]

namespace CR

/-! Embedding of `src/control-rom.ino`.  Address pins: bit 11 is 0, bits 6-10
carry the instruction, bits 0-5 carry the inverted ring-counter signal.
The source computes, inside `writeInstruction`,
`i_address = instruction << 6` (the parameter is a C++ `byte`) and
`t_address = (~(0x20 >> (t + t_start))) & 0x3F`, combined with bitwise or.
For a nonnegative C `int` x, `(~x) & 0x3F` equals `0x3F ^^^ (x &&& 0x3F)`,
which is how the complement-then-mask is written over `Nat` below. -/

/-- Value of `ROM_1_SELECT`, i.e. `(ROM_SELECT == 1)`, as the 0/1 factor the
source multiplies signal constants by. -/
def rom1Sel (sel : Nat) : Nat := if sel = 1 then 1 else 0

/-- Value of `ROM_2_SELECT`, i.e. `(ROM_SELECT == 2)`. -/
def rom2Sel (sel : Nat) : Nat := if sel = 2 then 1 else 0

def HLT (sel : Nat) : Nat := 1 * rom2Sel sel

def MI (sel : Nat) : Nat := 2 * rom2Sel sel

def RI (sel : Nat) : Nat := 4 * rom2Sel sel

def RO (sel : Nat) : Nat := 8 * rom2Sel sel

/-- The source constant named IO (instruction register out). -/
def Io (sel : Nat) : Nat := 16 * rom2Sel sel

def II (sel : Nat) : Nat := 32 * rom2Sel sel

def AI (sel : Nat) : Nat := 64 * rom2Sel sel

def AO (sel : Nat) : Nat := 128 * rom1Sel sel

def EO (sel : Nat) : Nat := 1 * rom1Sel sel

def SU (sel : Nat) : Nat := 2 * rom1Sel sel

def BI (sel : Nat) : Nat := 4 * rom1Sel sel

def OI (sel : Nat) : Nat := 8 * rom1Sel sel

def CE (sel : Nat) : Nat := 16 * rom1Sel sel

def CO (sel : Nat) : Nat := 32 * rom1Sel sel

def J (sel : Nat) : Nat := 64 * rom1Sel sel

def NOOP : Nat := 0

/-- The address computed by `writeInstruction` for a given instruction and
absolute time step `step = t + t_start`:
`(instruction << 6) | ((~(0x20 >> step)) & 0x3F)`. -/
def encode (instruction step : Nat) : Nat :=
  ((instruction % 256) <<< 6) ||| (0x3F ^^^ ((0x20 >>> step) &&& 0x3F))

/-- The `(address, data)` write sequence issued by
`writeInstruction(instruction, t_start, ops)`: one `writeEEPROM` per
`t = 0, 1, 2` at address `encode instruction (t + t_start)` with data
`ops[t]`. -/
def writeInstruction (instruction t_start : Nat) (ops : List Nat) :
    List (Nat × Nat) :=
  (List.range 3).map (fun t => (encode instruction (t + t_start), ops.getD t 0))

def FETCH (sel : Nat) : List Nat := [CO sel ||| MI sel, RO sel ||| II sel, CE sel]

def LDA (sel : Nat) : List Nat := [Io sel ||| MI sel, RO sel ||| AI sel, NOOP]

def ADD (sel : Nat) : List Nat := [Io sel ||| MI sel, RO sel ||| BI sel, EO sel ||| AI sel]

def SUB (sel : Nat) : List Nat :=
  [Io sel ||| MI sel, RO sel ||| BI sel, EO sel ||| AI sel ||| SU sel]

def LDI (sel : Nat) : List Nat := [Io sel ||| AI sel, NOOP, NOOP]

def STA (sel : Nat) : List Nat := [Io sel ||| MI sel, AO sel ||| RI sel, NOOP]

def INC (sel : Nat) : List Nat := [Io sel ||| BI sel, EO sel ||| AI sel, NOOP]

def DEC (sel : Nat) : List Nat := [Io sel ||| BI sel, EO sel ||| AI sel ||| SU sel, NOOP]

def JMP (sel : Nat) : List Nat := [Io sel ||| J sel, NOOP, NOOP]

def NOP : List Nat := [NOOP, NOOP, NOOP]

def OUT (sel : Nat) : List Nat := [AO sel ||| OI sel, NOOP, NOOP]

def HALT (sel : Nat) : List Nat := [HLT sel, NOOP, NOOP]

/-- The five `writeInstruction(opcode, 3, ops)` calls of `setup()`, in program
order: LDA at 0x0, ADD at 0x1, SUB at 0x2, OUT at 0xE, HALT at 0xF. -/
def instrCalls (sel : Nat) : List (Nat × List Nat) :=
  [(0x0, LDA sel), (0x1, ADD sel), (0x2, SUB sel), (0xE, OUT sel), (0xF, HALT sel)]

/-- The fetch-cycle phase of `setup()`:
`for (byte i = 0; i < 0x10; ++i) writeInstruction(i, 0, FETCH)`. -/
def fetchPhase (sel : Nat) : List (Nat × Nat) :=
  (List.range 16).flatMap (fun i => writeInstruction i 0 (FETCH sel))

/-- All programming writes of `setup()` after the erase phase, in program
order: the fetch cycle for all 16 opcodes, then the five instruction
programs at time-step start 3. -/
def progWrites (sel : Nat) : List (Nat × Nat) :=
  fetchPhase sel ++ (instrCalls sel).flatMap (fun p => writeInstruction p.1 3 p.2)

/-- Memory after a full `setup()` run started from memory `m0`: the erase
loop over addresses 0..2047, then the programming writes. -/
def setupMem (sel : Nat) (m0 : Memory) : Memory :=
  applyWrites (applyWrites m0 eraseWrites) (progWrites sel)

/-- The (opcode, absolute time-step) pairs programmed by a full run: every
opcode with fetch steps 0-2, and each instruction of `instrCalls` with
steps 3-5. -/
def runPairs : List (Nat × Nat) :=
  ((List.range 16).flatMap (fun i => (List.range 3).map (fun t => (i, t)))) ++
  ((instrCalls 1).flatMap (fun p => (List.range 3).map (fun t => (p.1, 3 + t))))

end CR

namespace V0

/-! Embedding of `src/unnamed/part_000`.  Inside `writeInstruction` the source
computes `address = (~(0x80 >> (t_start + t))) & 0x3F0` and ors in
`instruction & 0x00F` (the parameter is a C++ `byte`), so the ring signal
occupies address bits 4-9 and the opcode the low 4 bits. -/

def rom1Sel (sel : Nat) : Nat := if sel = 1 then 1 else 0

def rom2Sel (sel : Nat) : Nat := if sel = 2 then 1 else 0

def J (sel : Nat) : Nat := 1 * rom1Sel sel

def CO (sel : Nat) : Nat := 2 * rom1Sel sel

def CE (sel : Nat) : Nat := 4 * rom1Sel sel

def OI (sel : Nat) : Nat := 8 * rom1Sel sel

def BI (sel : Nat) : Nat := 16 * rom1Sel sel

def SU (sel : Nat) : Nat := 32 * rom1Sel sel

def EO (sel : Nat) : Nat := 64 * rom1Sel sel

def AO (sel : Nat) : Nat := 128 * rom1Sel sel

def AI (sel : Nat) : Nat := 1 * rom2Sel sel

def II (sel : Nat) : Nat := 2 * rom2Sel sel

/-- The source constant named IO. -/
def Io (sel : Nat) : Nat := 4 * rom2Sel sel

def RO (sel : Nat) : Nat := 8 * rom2Sel sel

def RI (sel : Nat) : Nat := 16 * rom2Sel sel

def MI (sel : Nat) : Nat := 32 * rom2Sel sel

def HLT (sel : Nat) : Nat := 64 * rom2Sel sel

def NOOP : Nat := 0

/-- The address computed by `writeInstruction` for absolute time step
`step = t_start + t`:
`((~(0x80 >> step)) & 0x3F0) | (instruction & 0x00F)`. -/
def encode (instruction step : Nat) : Nat :=
  (0x3F0 ^^^ ((0x80 >>> step) &&& 0x3F0)) ||| ((instruction % 256) &&& 0xF)

/-- The write sequence of `writeInstruction(instruction, t_start, ops)`. -/
def writeInstruction (instruction t_start : Nat) (ops : List Nat) :
    List (Nat × Nat) :=
  (List.range 3).map (fun t => (encode instruction (t_start + t), ops.getD t 0))

def FETCH (sel : Nat) : List Nat := [CO sel ||| MI sel, RO sel ||| II sel, CE sel]

def LDA (sel : Nat) : List Nat := [Io sel ||| MI sel, RO sel ||| AI sel, NOOP]

def ADD (sel : Nat) : List Nat := [Io sel ||| MI sel, RO sel ||| BI sel, EO sel ||| AI sel]

def SUB (sel : Nat) : List Nat :=
  [Io sel ||| MI sel, RO sel ||| BI sel, EO sel ||| AI sel ||| SU sel]

def OUT (sel : Nat) : List Nat := [AO sel ||| OI sel, NOOP, NOOP]

def HALT (sel : Nat) : List Nat := [HLT sel, NOOP, NOOP]

/-- The fetch-cycle phase of `setup()`: the 16-iteration loop
`writeInstruction(i, 0, FETCH)`. -/
def fetchPhase (sel : Nat) : List (Nat × Nat) :=
  (List.range 16).flatMap (fun i => writeInstruction i 0 (FETCH sel))

end V0

namespace V1

/-! Embedding of `src/unnamed/part_001`.  Per its header comment the address
pins are: bits 0-5 ring counter signal, bits 6-10 instruction (zeroed by the
hardware during fetch steps T1-T3).  `writeInstruction` computes the address
as `(0x80 >> (t_start + t)) + instruction` with no inversion and no masking;
the signal constants for ROM 1 are hard-coded 1..128 and the ROM 2 signals
are the constant 0. -/

def J : Nat := 1

def CO : Nat := 2

def CE : Nat := 4

def OI : Nat := 8

def BI : Nat := 16

def SU : Nat := 32

def EO : Nat := 64

def AO : Nat := 128

def AI : Nat := 0

def II : Nat := 0

/-- The source constant named IO. -/
def Io : Nat := 0

def RO : Nat := 0

def RI : Nat := 0

def MI : Nat := 0

def HLT : Nat := 0

def NOOP : Nat := 0

/-- The address computed by `writeInstruction` for absolute time step
`step = t_start + t`: `(0x80 >> step) + instruction`. -/
def encode (instruction step : Nat) : Nat :=
  (0x80 >>> step) + instruction

/-- The write sequence of `writeInstruction(instruction, t_start, ops)`. -/
def writeInstruction (instruction t_start : Nat) (ops : List Nat) :
    List (Nat × Nat) :=
  (List.range 3).map (fun t => (encode instruction (t_start + t), ops.getD t 0))

def FETCH : List Nat := [CO + MI, RO + II, CE]

def LDA : List Nat := [Io + MI, RO + AI, NOOP]

def ADD : List Nat := [Io + MI, RO + BI, EO + AI]

def SUB : List Nat := [Io + MI, RO + BI, EO + AI + SU]

def OUT : List Nat := [AO + OI, NOOP, NOOP]

def HALT : List Nat := [HLT, NOOP, NOOP]

/-- The five `writeInstruction(opcode, 3, ops)` calls of `setup()`. -/
def instrCalls : List (Nat × List Nat) :=
  [(0x0, LDA), (0x1, ADD), (0x2, SUB), (0xE, OUT), (0xF, HALT)]

/-- The fetch-cycle phase of this revision's `setup()`: the single call
`writeInstruction(0x0, 0, FETCH)`. -/
def fetchPhase : List (Nat × Nat) := writeInstruction 0 0 FETCH

/-- All programming writes of `setup()` after the erase phase. -/
def progWrites : List (Nat × Nat) :=
  fetchPhase ++ instrCalls.flatMap (fun p => writeInstruction p.1 3 p.2)

/-- Memory after a full `setup()` run of this revision. -/
def setupMem (m0 : Memory) : Memory :=
  applyWrites (applyWrites m0 eraseWrites) progWrites

end V1

/-- State of the bit-banged bus: the 16 bits held by the two-stage shift
register chain, the latch line, the write-enable line, the data-line
direction (true = output) and the value driven on the data lines. -/
structure BusState where
  shiftReg : Nat
  latch : Bool
  writeEn : Bool
  dataDir : Bool
  dataOut : Nat

namespace Bus

/-- One `shiftOut(SHIFT_DATA, SHIFT_CLK, MSBFIRST, b)` call: the low 8 bits
of `b` enter the two-stage shift register chain. -/
def shiftOutByte (s : BusState) (b : Nat) : BusState :=
  { s with shiftReg := ((s.shiftReg <<< 8) ||| (b % 256)) % 65536 }

/-- Model of `setAddress(int address, bool outputEnable)` (identical in all
three sketches): shift out the high byte with the inverted output-enable
flag in its top bit, shift out the low byte, then pulse the latch line
low, high, low. -/
def setAddress (s : BusState) (address : Nat) (outputEnable : Bool) : BusState :=
  let s1 := shiftOutByte s ((address >>> 8) ||| (if outputEnable then 0x00 else 0x80))
  let s2 := shiftOutByte s1 address
  let s3 := { s2 with latch := false }
  let s4 := { s3 with latch := true }
  { s4 with latch := false }

/-- Pin-level effect of `readEEPROM`: data lines switched to input, then
`setAddress(address, true)`. -/
def readPins (s : BusState) (address : Nat) : BusState :=
  setAddress { s with dataDir := false } address true

/-- Pin-level effect of `writeEEPROM`: `setAddress(address, false)`, data
lines switched to output and driven with the byte, then the write-enable
line pulsed low and back high. -/
def writePins (s : BusState) (address data : Nat) : BusState :=
  let s1 := setAddress s address false
  let s2 := { s1 with dataDir := true, dataOut := data % 256 }
  let s3 := { s2 with writeEn := false }
  { s3 with writeEn := true }

/-- Power-on reset state of the output registers: all lines low. -/
def resetState : BusState :=
  { shiftReg := 0, latch := false, writeEn := false, dataDir := false, dataOut := 0 }

/-- The line initialization at the top of `setup()`: the only output-register
change is `digitalWrite(WRITE_EN, HIGH)` before `WRITE_EN` is switched to an
output. -/
def setupInit (s : BusState) : BusState := { s with writeEn := true }

/-- The idle state after initialization: write-enable high, latch low. -/
def idleState : BusState := setupInit resetState

end Bus

/-- In the part_000 encoding the opcode occupies the low 4 bits and the ring
signal bits 4-9, so every computed address fits in 10 bits: the layout of
that revision implies a 2^10 address space. -/
theorem v0_encode_lt_1024 (o k : Nat) : V0.encode o k < 2 ^ 10 := by
  have ht : (0x3F0 ^^^ ((0x80 >>> k) &&& 0x3F0)) < 2 ^ 10 :=
    Nat.xor_lt_two_pow (by norm_num)
      (Nat.lt_of_le_of_lt Nat.and_le_right (by norm_num))
  have ho : ((o % 256) &&& 0xF) < 2 ^ 10 :=
    Nat.lt_of_le_of_lt Nat.and_le_right (by norm_num)
  exact Nat.or_lt_two_pow ht ho

/-- Claim C2 (counterexample): in the part_001 revision the fetch-window
address and the instruction-window address of the same opcode differ in the
opcode field (address bits 6-10 per that file's header): already for opcode
0, time-step 0, the encoded address 0x80 has opcode-field value 2 while the
address for time-step 3 has opcode-field value 0. -/
theorem encode_v1_opcode_field_changes :
    V1.encode 0 0 >>> 6 = 2 ∧ V1.encode 0 3 >>> 6 = 0 ∧
    ¬ V1.encode 0 0 >>> 6 = V1.encode 0 3 >>> 6 := by decide

/-- Claim C2 (amended): in the control-rom.ino and part_000 revisions, for
every opcode in [0,15] and time-step t in range 0-2, the addresses encoded for
(o, t+3) and (o, t) differ only in the timing-bit field (their bitwise
difference is contained in the timing mask), are identical in the opcode
field, and are distinct addresses.  For control-rom.ino the timing field is
address bits 0-5 and the opcode field bits 6 and above; for part_000 the
timing field is bits 4-9 and the opcode field bits 0-3. -/
theorem encode_timing_field_only (o t : Nat) (ho : o < 16) (ht : t < 3) :
    ((CR.encode o (t + 3)) ^^^ (CR.encode o t)) ||| 0x3F = 0x3F ∧
    (CR.encode o (t + 3)) >>> 6 = (CR.encode o t) >>> 6 ∧
    CR.encode o (t + 3) ≠ CR.encode o t ∧
    ((V0.encode o (t + 3)) ^^^ (V0.encode o t)) ||| 0x3F0 = 0x3F0 ∧
    (V0.encode o (t + 3)) &&& 0xF = (V0.encode o t) &&& 0xF ∧
    V0.encode o (t + 3) ≠ V0.encode o t := by
  interval_cases o <;> interval_cases t <;> decide

/-- Witness for `encode_timing_field_only` at opcode 0, time-step 0. -/
theorem encode_timing_field_only_witness :
    ((CR.encode 0 3) ^^^ (CR.encode 0 0)) ||| 0x3F = 0x3F ∧
    (CR.encode 0 3) >>> 6 = (CR.encode 0 0) >>> 6 ∧
    CR.encode 0 3 ≠ CR.encode 0 0 ∧
    ((V0.encode 0 3) ^^^ (V0.encode 0 0)) ||| 0x3F0 = 0x3F0 ∧
    (V0.encode 0 3) &&& 0xF = (V0.encode 0 0) &&& 0xF ∧
    V0.encode 0 3 ≠ V0.encode 0 0 :=
  encode_timing_field_only 0 0 (by decide) (by decide)

/-- Claim C3 (counterexample): neither control-rom.ino nor part_001 masks the
opcode to 4 bits: passing opcode 16 to the address computation yields a
different address than opcode 16 mod 16 = 0. -/
theorem encode_opcode_not_masked :
    CR.encode 16 0 ≠ CR.encode (16 % 16) 0 ∧
    V1.encode 16 3 ≠ V1.encode (16 % 16) 3 := by decide

/-- Claim C3 (amended): only the part_000 revision masks the opcode to its
low 4 bits, so there encoding opcode o and opcode o mod 16 agree for every
time step; control-rom.ino truncates the opcode only to the 8 bits of its
`byte` parameter. -/
theorem encode_v0_opcode_mask (o k : Nat) :
    V0.encode o k = V0.encode (o % 16) k ∧
    CR.encode o k = CR.encode (o % 256) k := by
  constructor
  · have key : ∀ x : Nat, (x % 256) &&& 0xF = x % 16 := by
      intro x
      have h15 : (0xF : Nat) = 2 ^ 4 - 1 := by norm_num
      rw [h15, Nat.and_pow_two_sub_one_eq_mod]
      exact Nat.mod_mod_of_dvd x (by norm_num)
    have e3 : o % 16 % 16 = o % 16 := Nat.mod_mod_of_dvd o (dvd_refl 16)
    simp [V0.encode, key o, key (o % 16), e3]
  · simp [CR.encode, Nat.mod_mod_of_dvd o (dvd_refl 256)]

/-- Claim C4 (counterexample): the erase loop runs over addresses 0..2047 in
every revision, so in part_000, whose address layout implies a 2^10 = 1024
address space (see `v0_encode_lt_1024`), the erase phase writes to address
1500, outside [0, 1024). -/
theorem erase_beyond_v0_capacity :
    (1500, 0xFF) ∈ eraseWrites ∧ ¬ 1500 < 2 ^ 10 := by
  constructor
  · exact List.mem_map_of_mem (fun a => (a, 0xFF)) (List.mem_range.mpr (by norm_num))
  · decide

/-- Claim C4 (amended): the bulk-erase phase writes the all-ones byte 0xFF to
every address in [0, 2048) and to no other address, in every revision,
regardless of the layout's width; afterwards every address in [0, 2048)
holds 0xFF and every address at or above 2048 is untouched. -/
theorem bulkErase_covers_2048 (m0 : Memory) (a : Nat) :
    (a < 2048 → applyWrites m0 eraseWrites a = 0xFF) ∧
    (2048 ≤ a → applyWrites m0 eraseWrites a = m0 a) ∧
    (∀ p ∈ eraseWrites, p.1 < 2048 ∧ p.2 = 0xFF) := by
  refine ⟨fun h => ?_, fun h => ?_, fun p hp => ?_⟩
  · rw [eraseWrites, applyWrites_eraseList]; simp [h]
  · rw [eraseWrites, applyWrites_eraseList]; simp [Nat.not_lt_of_le h]
  · simp only [eraseWrites, eraseList, List.mem_map, List.mem_range] at hp
    obtain ⟨i, hi, rfl⟩ := hp
    exact ⟨hi, rfl⟩

/-- Witness for `bulkErase_covers_2048`: after the erase phase address 5
holds 0xFF and address 3000 still holds its previous value. -/
theorem bulkErase_covers_2048_witness :
    applyWrites mzero eraseWrites 5 = 0xFF ∧
    applyWrites mzero eraseWrites 3000 = mzero 3000 :=
  ⟨(bulkErase_covers_2048 mzero 5).1 (by decide),
   (bulkErase_covers_2048 mzero 3000).2.1 (by decide)⟩

/-- Claim C5 (counterexample): in the part_001 revision the fetch program is
written by a single `writeInstruction(0x0, 0, FETCH)` call (3 writes, opcode
0 only), not once per opcode: its fetch phase has exactly 3 writes and the
whole programming run contains no write at the address opcode 1's fetch
step 0 would encode to. -/
theorem fetch_written_once_in_v1 :
    V1.fetchPhase.length = 3 ∧
    V1.fetchPhase.map Prod.fst = [128, 64, 32] ∧
    (V1.progWrites.map Prod.fst).count (V1.encode 1 0) = 0 := by decide

/-- Claim C5 (amended): in the control-rom.ino revision (and likewise
part_000) the fetch phase of `setup()` writes the 3-step fetch program once
per opcode value, 16 separate times: it issues exactly 48 writes, and for
every opcode in [0,15] and fetch step t in range 0-2 exactly one of them hits
the address encoded for that pair, carrying the fetch step's byte. -/
theorem fetch_once_per_opcode (sel i t : Nat)
    (hsel : sel = 1 ∨ sel = 2) (hi : i < 16) (ht : t < 3) :
    (CR.fetchPhase sel).length = 48 ∧
    (CR.fetchPhase sel).count (CR.encode i t, (CR.FETCH sel).getD t 0) = 1 ∧
    (V0.fetchPhase sel).length = 48 ∧
    (V0.fetchPhase sel).count (V0.encode i t, (V0.FETCH sel).getD t 0) = 1 := by
  rcases hsel with rfl | rfl <;> interval_cases i <;> interval_cases t <;> decide

/-- Witness for `fetch_once_per_opcode` at bank 1, opcode 0, step 0. -/
theorem fetch_once_per_opcode_witness :
    (CR.fetchPhase 1).length = 48 ∧
    (CR.fetchPhase 1).count (CR.encode 0 0, (CR.FETCH 1).getD 0 0) = 1 ∧
    (V0.fetchPhase 1).length = 48 ∧
    (V0.fetchPhase 1).count (V0.encode 0 0, (V0.FETCH 1).getD 0 0) = 1 :=
  fetch_once_per_opcode 1 0 0 (Or.inl rfl) (by decide) (by decide)

/-- Claim C6: bank isolation.  In control-rom.ino and part_000, when the
build targets bank 1 every signal constant multiplied by `ROM_2_SELECT` is 0
and the bank-1 signals occupy the eight distinct bit positions, and
symmetrically when the build targets bank 2; in part_001, which hard-codes
the bank-1 build, every bank-2 signal constant is 0 and the bank-1 signals
occupy distinct bits. -/
theorem bank_isolation :
    (CR.HLT 1 = 0 ∧ CR.MI 1 = 0 ∧ CR.RI 1 = 0 ∧ CR.RO 1 = 0 ∧
      CR.Io 1 = 0 ∧ CR.II 1 = 0 ∧ CR.AI 1 = 0) ∧
    [CR.AO 1, CR.EO 1, CR.SU 1, CR.BI 1, CR.OI 1, CR.CE 1, CR.CO 1, CR.J 1]
      = [128, 1, 2, 4, 8, 16, 32, 64] ∧
    (CR.AO 2 = 0 ∧ CR.EO 2 = 0 ∧ CR.SU 2 = 0 ∧ CR.BI 2 = 0 ∧
      CR.OI 2 = 0 ∧ CR.CE 2 = 0 ∧ CR.CO 2 = 0 ∧ CR.J 2 = 0) ∧
    [CR.HLT 2, CR.MI 2, CR.RI 2, CR.RO 2, CR.Io 2, CR.II 2, CR.AI 2]
      = [1, 2, 4, 8, 16, 32, 64] ∧
    (V0.AI 1 = 0 ∧ V0.II 1 = 0 ∧ V0.Io 1 = 0 ∧ V0.RO 1 = 0 ∧
      V0.RI 1 = 0 ∧ V0.MI 1 = 0 ∧ V0.HLT 1 = 0) ∧
    [V0.J 1, V0.CO 1, V0.CE 1, V0.OI 1, V0.BI 1, V0.SU 1, V0.EO 1, V0.AO 1]
      = [1, 2, 4, 8, 16, 32, 64, 128] ∧
    (V0.J 2 = 0 ∧ V0.CO 2 = 0 ∧ V0.CE 2 = 0 ∧ V0.OI 2 = 0 ∧
      V0.BI 2 = 0 ∧ V0.SU 2 = 0 ∧ V0.EO 2 = 0 ∧ V0.AO 2 = 0) ∧
    [V0.AI 2, V0.II 2, V0.Io 2, V0.RO 2, V0.RI 2, V0.MI 2, V0.HLT 2]
      = [1, 2, 4, 8, 16, 32, 64] ∧
    (V1.AI = 0 ∧ V1.II = 0 ∧ V1.Io = 0 ∧ V1.RO = 0 ∧
      V1.RI = 0 ∧ V1.MI = 0 ∧ V1.HLT = 0) ∧
    [V1.J, V1.CO, V1.CE, V1.OI, V1.BI, V1.SU, V1.EO, V1.AO]
      = [1, 2, 4, 8, 16, 32, 64, 128] := by decide

/-- Claim C8 (counterexample): the part_001 encoding is not injective over
the pairs written by its sequencer: the distinct pairs (opcode 2, time-step
3), written while programming SUB, and (opcode 0xE, time-step 5), written
while programming OUT, both map to address 0x12 = 18, and that address is
written twice during the run. -/
theorem v1_encode_collision :
    V1.encode 2 3 = 18 ∧ V1.encode 14 5 = 18 ∧
    ¬ ((2, 3) : Nat × Nat) = (14, 5) ∧
    (V1.progWrites.map Prod.fst).count 18 = 2 := by decide

/-- Claim C8 (amended): in the control-rom.ino revision the address encoding
is injective over the (opcode, time-step) pairs programmed in a full run:
the 63 pairs covered by the sequencer are pairwise distinct and so are their
encoded addresses, so each programmed address receives exactly one byte. -/
theorem encode_injective_on_run :
    CR.runPairs.length = 63 ∧ CR.runPairs.Nodup ∧
    (CR.runPairs.map (fun p => CR.encode p.1 p.2)).Nodup := by decide

/-- Claim C1: round-trip after a full `setup()` run.  Starting from any
memory contents and for either bank selection, every (opcode, time-step)
pair written during the control-rom.ino run reads back exactly the byte its
microcode table defines: every opcode's fetch steps 0-2 read back the fetch
program, and each programmed instruction's steps 3-5 read back its program.
The same holds for the part_001 run (where the fetch cycle is written for
opcode 0 only). -/
theorem roundtrip_after_setup (m0 : Memory) (sel : Nat)
    (hsel : sel = 1 ∨ sel = 2) :
    (∀ i t, i < 16 → t < 3 →
      readEEPROM (CR.setupMem sel m0) (CR.encode i t) = (CR.FETCH sel).getD t 0) ∧
    (∀ p ∈ CR.instrCalls sel, ∀ t, t < 3 →
      readEEPROM (CR.setupMem sel m0) (CR.encode p.1 (t + 3)) = p.2.getD t 0) ∧
    (∀ t, t < 3 →
      readEEPROM (V1.setupMem m0) (V1.encode 0 t) = V1.FETCH.getD t 0) ∧
    (∀ p ∈ V1.instrCalls, ∀ t, t < 3 →
      readEEPROM (V1.setupMem m0) (V1.encode p.1 (3 + t)) = p.2.getD t 0) := by
  rcases hsel with rfl | rfl <;>
    refine ⟨fun i t hi ht => ?_, fun p hp t ht => ?_,
      fun t ht => ?_, fun p hp t ht => ?_⟩ <;>
    first
      | (interval_cases i <;> interval_cases t <;> rfl)
      | (fin_cases hp <;> interval_cases t <;> rfl)
      | (interval_cases t <;> rfl)

/-- Witness for `roundtrip_after_setup`: bank 1, all-zero initial memory,
opcode 0, fetch step 0. -/
theorem roundtrip_after_setup_witness :
    readEEPROM (CR.setupMem 1 mzero) (CR.encode 0 0) = (CR.FETCH 1).getD 0 0 :=
  (roundtrip_after_setup mzero 1 (Or.inl rfl)).1 0 0 (by decide) (by decide)

/-- Claim C7: frame property of a full run.  Any address below 2048 that is
not among the addresses written by the programming phase still holds 0xFF
after the control-rom.ino run, and likewise after the part_001 run. -/
theorem unprogrammed_addresses_keep_erased_value (m0 : Memory) (a : Nat)
    (ha : a < 2048) :
    (a ∉ (CR.progWrites 1).map Prod.fst → CR.setupMem 1 m0 a = 0xFF) ∧
    (a ∉ V1.progWrites.map Prod.fst → V1.setupMem m0 a = 0xFF) := by
  constructor <;> intro hmem
  · have h1 : ∀ p ∈ CR.progWrites 1, p.1 ≠ a := fun p hp heq =>
      hmem (heq ▸ List.mem_map_of_mem Prod.fst hp)
    rw [CR.setupMem, applyWrites_frozen a _ _ h1, eraseWrites,
      applyWrites_eraseList]
    simp [ha]
  · have h1 : ∀ p ∈ V1.progWrites, p.1 ≠ a := fun p hp heq =>
      hmem (heq ▸ List.mem_map_of_mem Prod.fst hp)
    rw [V1.setupMem, applyWrites_frozen a _ _ h1, eraseWrites,
      applyWrites_eraseList]
    simp [ha]

/-- Witness for `unprogrammed_addresses_keep_erased_value`: address 100 is
not programmed by the control-rom.ino run and address 3 is not programmed by
the part_001 run; both read 0xFF afterwards. -/
theorem unprogrammed_addresses_keep_erased_value_witness :
    CR.setupMem 1 mzero 100 = 0xFF ∧ V1.setupMem mzero 3 = 0xFF :=
  ⟨(unprogrammed_addresses_keep_erased_value mzero 100 (by decide)).1 (by decide),
   (unprogrammed_addresses_keep_erased_value mzero 3 (by decide)).2 (by decide)⟩

/-- Claim C9 (counterexample): in the bank-2 build of control-rom.ino, which
is the bank placing MI at bit 1, RO at bit 3 and AI at bit 6, reading back
the address encoded for (opcode 0x0, time-step 3) after a full run yields
LDA's step-0 byte IO|MI = 0b00010010 = 18, not the claimed 0b00001010. -/
theorem lda_step0_readback_counterexample :
    CR.MI 2 = 2 ∧ CR.RO 2 = 8 ∧ CR.AI 2 = 64 ∧
    ¬ readEEPROM (CR.setupMem 2 mzero) (CR.encode 0 3) = 0b00001010 := by
  refine ⟨rfl, rfl, rfl, ?_⟩
  decide

/-- Claim C9 (amended): with opcode 0x0 (LDA) programmed at time-step start
3 in the bank-2 build (MI at bit 1, RO at bit 3, AI at bit 6), reading back
the address encoded for (0x0, 3) yields 0b00010010 (IO at bit 4 combined
with MI at bit 1) at step 0 of the program, and reading back step 2 yields
the no-op byte 0. -/
theorem lda_readback_bank2 (m0 : Memory) :
    CR.MI 2 = 2 ∧ CR.RO 2 = 8 ∧ CR.AI 2 = 64 ∧
    readEEPROM (CR.setupMem 2 m0) (CR.encode 0 3) = 0b00010010 ∧
    readEEPROM (CR.setupMem 2 m0) (CR.encode 0 5) = 0 :=
  ⟨rfl, rfl, rfl, rfl, rfl⟩

/-- Claim C10: after every bus operation the write-enable line is left high
and the latch line is left low.  Provided write-enable was high on entry (as
initialization establishes), `setAddress` and the pin-level effect of
`readEEPROM` leave it untouched and end with the latch low; the pin-level
effect of `writeEEPROM` ends with write-enable driven back high and the
latch low; and initialization from the reset state drives write-enable high
while the latch stays low. -/
theorem bus_lines_idle_after_ops (s : BusState) (a v : Nat) (oe : Bool)
    (h : s.writeEn = true) :
    ((Bus.setAddress s a oe).writeEn = true ∧ (Bus.setAddress s a oe).latch = false) ∧
    ((Bus.readPins s a).writeEn = true ∧ (Bus.readPins s a).latch = false) ∧
    ((Bus.writePins s a v).writeEn = true ∧ (Bus.writePins s a v).latch = false) ∧
    ((Bus.setupInit Bus.resetState).writeEn = true ∧
      (Bus.setupInit Bus.resetState).latch = false) := by
  simp [Bus.setAddress, Bus.readPins, Bus.writePins, Bus.setupInit,
    Bus.resetState, Bus.shiftOutByte, h]

/-- Witness for `bus_lines_idle_after_ops` at the post-initialization idle
state, address 0, data 0, output-enable true. -/
theorem bus_lines_idle_after_ops_witness :
    ((Bus.setAddress Bus.idleState 0 true).writeEn = true ∧
      (Bus.setAddress Bus.idleState 0 true).latch = false) ∧
    ((Bus.readPins Bus.idleState 0).writeEn = true ∧
      (Bus.readPins Bus.idleState 0).latch = false) ∧
    ((Bus.writePins Bus.idleState 0 0).writeEn = true ∧
      (Bus.writePins Bus.idleState 0 0).latch = false) ∧
    ((Bus.setupInit Bus.resetState).writeEn = true ∧
      (Bus.setupInit Bus.resetState).latch = false) :=
  bus_lines_idle_after_ops Bus.idleState 0 0 true rfl

